import Mathlib

/-
Verification of the trading-bot core logic (base_bot.py, binance_tradingbot.py,
ssi_tradingbot.py) as a shallow embedding in Lean 4.

Conventions of the embedding:
* Python floats are modelled as rationals (ℚ); the claims under study are about
  exact thresholds, signs and bounds, not binary rounding.
* Python `None` becomes `Option.none`; Python truthiness of an optional float
  field (`if not self.x`) is `qTruthy`, which is false for `none` and for `some 0`.
* The exchange/gateway is external: each function that places an order takes the
  gateway's reply as an explicit `Option` argument (`none` = the API returned no
  order or raised, which `place_order` turns into `None`), and returns the order
  request it sent (if any) alongside the new state, so "places no order" is
  expressible.
* `Decimal(str(x)).quantize(Decimal(str(step)), ROUND_DOWN)` is modelled by
  `quantizeDown x d` where `d` is the number of fractional digits of the decimal
  string of `step` (the exponent of `Decimal(str(step))`); `ROUND_DOWN` rounds
  toward zero, which is `truncToward0`. Whether the Python value of the
  step/tick is an `int` (so that `'.' in str(step)` is false) is carried as an
  explicit boolean, and the stripped-trailing-zero precision being positive
  corresponds to `0 < d` for float values (str of a float never shows trailing
  zeros except the single `.0` of an integral float, which has `d = 0` after
  `rstrip`).
-/

set_option linter.unusedVariables false

namespace Bot

/-- Position side stored in `self.position` (`'LONG'` / `'SHORT'`, `None` = flat). -/
inductive PSide
  | LONG
  | SHORT
deriving DecidableEq, Repr

/-- Order side strings `'BUY'` / `'SELL'` used as strategy signals and order sides. -/
inductive Signal
  | BUY
  | SELL
deriving DecidableEq, Repr

/-- Trading mode `'spot'` / `'futures'` from the config. -/
inductive Mode
  | spot
  | futures
deriving DecidableEq, Repr

/-- Order request sent to the execution gateway (`place_order_api(side, quantity)`). -/
structure OrderReq where
  side : Signal
  quantity : ℚ
deriving DecidableEq, Repr

/-- Python truthiness of an optional float: `None` and `0.0` are falsy. -/
def qTruthy : Option ℚ → Bool
  | none => false
  | some x => x != 0

/-- Rounding toward zero, the behaviour of Python `int(x)` and of `Decimal`
`ROUND_DOWN` on a float. -/
def truncToward0 (x : ℚ) : ℤ :=
  if 0 ≤ x then ⌊x⌋ else ⌈x⌉

/-- Model of `Decimal(str(x)).quantize(step, rounding=ROUND_DOWN)` where the
quantization target has `d` fractional digits: round `x` toward zero at the
`d`-th decimal place. -/
def quantizeDown (x : ℚ) (d : ℕ) : ℚ :=
  (truncToward0 (x * 10 ^ d) : ℚ) / 10 ^ d

/-- Python float `%` with a positive right operand: `a % b = a - b * floor(a / b)`. -/
def pyMod (a b : ℚ) : ℚ :=
  a - b * (⌊a / b⌋ : ℚ)

/-- Exit reason string passed to `close_position` by the stop-loss branch. -/
def stopLossReason : String :=
  "Stop Loss"

/-- Exit reason string passed to `close_position` by the take-profit branch. -/
def takeProfitReason : String :=
  "Take Profit"

end Bot

namespace BaseBot

open Bot

/-- Embedding of `BaseTradingBot.round_quantity` (base_bot.py:77).
`stepIsInt` records whether `self.step_size` is a Python `int` (no `'.'` in its
`str`); `d` is the fractional-digit count of its decimal string. The quantize
branch is taken iff the step is a float with a nonzero fractional part
(`'.' in str(step) and precision > 0`); otherwise the code returns
`int(quantity)`. -/
def round_quantity (stepIsInt : Bool) (d : ℕ) (quantity : ℚ) : ℚ :=
  if stepIsInt = false ∧ 0 < d then quantizeDown quantity d
  else (truncToward0 quantity : ℚ)

/-- Embedding of `BaseTradingBot.round_price` (base_bot.py:88). In the integer
tick-size branch the source has a bare `return` on its own line followed by an
unreachable expression `int(price - (price % self.tick_size))`, so the function
returns `None` there; the result type is therefore `Option`. -/
def round_price (tickIsInt : Bool) (d : ℕ) (tick price : ℚ) : Option ℚ :=
  if tickIsInt = false ∧ 0 < d then some (quantizeDown price d)
  else none

/-- The last `n` elements of a list, in order: Python `list(xs)[-n:]` for `0 < n ≤ len`. -/
def lastN (l : List ℚ) (n : ℕ) : List ℚ :=
  l.drop (l.length - n)

/-- Consecutive close-to-close changes `closes[i] - closes[i-1]` of a list of closes. -/
def deltas (closes : List ℚ) : List ℚ :=
  List.zipWith (fun b a => b - a) closes.tail closes

/-- Gain list built by the loop in `calculate_rsi`: a positive change is
appended as a gain, any other change appends `0`. -/
def gainsOf (changes : List ℚ) : List ℚ :=
  changes.map (fun c => if 0 < c then c else 0)

/-- Loss list built by the loop in `calculate_rsi`: a non-positive change
(including zero) appends `abs(change)`, a positive one appends `0`. -/
def lossesOf (changes : List ℚ) : List ℚ :=
  changes.map (fun c => if 0 < c then 0 else |c|)

/-- Embedding of `BaseTradingBot.calculate_rsi` (base_bot.py:108); the copies in
binance_tradingbot.py:155 and ssi_tradingbot.py:152 are textually identical.
`klines` is the deque of closes. Both averages use a simple mean over
`period`; `avg_loss = 0` saturates to 100. -/
def calculate_rsi (klines : List ℚ) (period : ℕ) : Option ℚ :=
  if klines.length < period + 1 then none
  else
    let closes := lastN klines (period + 1)
    let avg_gain := (gainsOf (deltas closes)).sum / (period : ℚ)
    let avg_loss := (lossesOf (deltas closes)).sum / (period : ℚ)
    if avg_loss = 0 then some 100
    else some (100 - 100 / (1 + avg_gain / avg_loss))

/-- Embedding of `BinanceTradingBot.check_rsi_strategy` (binance_tradingbot.py:207);
the `'rsi'` branch of `BaseTradingBot.check_strategy` (base_bot.py:144) is the
same logic inline. The source guard is `if not rsi: return None`, Python
truthiness, so an RSI of exactly 0 also yields no signal. The `__init__`
values are `rsi_period = 14`, `rsi_oversold = 30`, `rsi_overbought = 70`. -/
def check_rsi_strategy (period : ℕ) (oversold overbought : ℚ)
    (klines : List ℚ) (position : Option PSide) : Option Signal :=
  match calculate_rsi klines period with
  | none => none
  | some rsi =>
    if rsi = 0 then none
    else if rsi < oversold ∧ position ≠ some PSide.LONG then some Signal.BUY
    else if overbought < rsi ∧ position = some PSide.LONG then some Signal.SELL
    else none

/-- Mutable engine state of `BaseTradingBot`: the fields the claims are about.
`symbolVN30` records whether the substring `'VN30'` occurs in `self.symbol`. -/
structure BotState where
  mode : Mode
  symbolVN30 : Bool
  current_price : Option ℚ
  klines : List ℚ
  position : Option PSide
  entry_price : Option ℚ
  position_size : ℚ
  unrealized_pnl : ℚ
  total_trades : ℕ
  winning_trades : ℕ
  total_pnl : ℚ
deriving DecidableEq, Repr

/-- Contract multiplier used by `BaseTradingBot.close_position` (base_bot.py:216):
`100000 if self.mode == 'futures' and 'VN30' in self.symbol else 1`. -/
def contractMultiplier (s : BotState) : ℚ :=
  if s.mode = Mode.futures ∧ s.symbolVN30 = true then 100000 else 1

/-- Embedding of `BaseTradingBot.open_position` (base_bot.py:181). `quantity` is
the result of the abstract `self.calculate_quantity()`; `fill` is the order the
gateway wrapper `place_order` returned (`none` = the API returned no order or
raised), as `(price, filledQty)`. The second component of the result is the
order request actually sent to the gateway, `none` when no order was placed. -/
def open_position (s : BotState) (signal : Signal) (quantity : ℚ)
    (fill : Option (ℚ × ℚ)) : BotState × Option OrderReq :=
  if s.position ≠ none then (s, none)
  else if quantity ≤ 0 then (s, none)
  else
    match fill with
    | none => (s, some ⟨signal, quantity⟩)
    | some (price, filledQty) =>
      ({ s with
          position := some (if signal = Signal.BUY then PSide.LONG else PSide.SHORT),
          entry_price := some price,
          position_size := filledQty,
          total_trades := s.total_trades + 1 },
        some ⟨signal, quantity⟩)

/-- Embedding of `BaseTradingBot.close_position` (base_bot.py:204). `reason`
only feeds the log line in the source. `fill` is the exit order returned by
`place_order` (its `'price'` field); `none` = failure, in which case nothing
after the `if order:` guard runs. While a position is open `self.entry_price`
is always a set float, so the subtraction reads it with `getD 0`. -/
def close_position (s : BotState) (reason : String) (fill : Option ℚ) :
    BotState × Option OrderReq :=
  match s.position with
  | none => (s, none)
  | some side =>
    let req : OrderReq :=
      ⟨if side = PSide.LONG then Signal.SELL else Signal.BUY, s.position_size⟩
    match fill with
    | none => (s, some req)
    | some exit_price =>
      let entry := s.entry_price.getD 0
      let multiplier := contractMultiplier s
      let pnl :=
        match side with
        | PSide.LONG => (exit_price - entry) * s.position_size * multiplier
        | PSide.SHORT => (entry - exit_price) * s.position_size * multiplier
      ({ s with
          total_pnl := s.total_pnl + pnl,
          winning_trades :=
            if 0 < pnl then s.winning_trades + 1 else s.winning_trades,
          position := none,
          entry_price := none,
          position_size := 0 },
        some req)

/-- Embedding of `BaseTradingBot.check_position_management` (base_bot.py:235).
`fill` is the gateway reply handed to `close_position` if an exit is triggered.
The second component reports which exit reason (if any) a close was attempted
with; a `some` reason means `close_position` was invoked, sending an order for
the open position. Only `'LONG'` positions are examined; for `'SHORT'` the body
does nothing (`# Add Short logic if needed`). The guard is Python truthiness,
so a zero entry or current price also returns early. After the if/elif the
source always stores `unrealized_pnl = pnl_pct * 100`, even when a close ran.
`BinanceTradingBot.check_position_management` (binance_tradingbot.py:363)
differs only in returning right after a triggered close instead of updating
the stored percentage. This is the local `pnl_pct = (self.current_price -
self.entry_price) / self.entry_price`. -/
def pnlPct (s : BotState) : ℚ :=
  (s.current_price.getD 0 - s.entry_price.getD 0) / s.entry_price.getD 0

/-- Continuation of the embedding above: the body of
`check_position_management`, with the trailing `unrealized_pnl` assignment
distributed into the three branches of the if/elif (it runs in all of them). -/
def check_position_management (s : BotState) (fill : Option ℚ) :
    BotState × Option String :=
  if s.position = none ∨
      qTruthy s.entry_price = false ∨ qTruthy s.current_price = false then
    (s, none)
  else if s.position = some PSide.LONG then
    if pnlPct s ≤ -2 / 100 then
      ({ (close_position s stopLossReason fill).1 with
          unrealized_pnl := pnlPct s * 100 }, some stopLossReason)
    else if 3 / 100 ≤ pnlPct s then
      ({ (close_position s takeProfitReason fill).1 with
          unrealized_pnl := pnlPct s * 100 }, some takeProfitReason)
    else ({ s with unrealized_pnl := pnlPct s * 100 }, none)
  else (s, none)

end BaseBot

namespace SSIBot

open Bot

/-- Embedding of `SSITradingBot.round_price` (ssi_tradingbot.py:127); identical
to `BinanceTradingBot.round_price` (binance_tradingbot.py:122). The integer
branch computes `int(price - (price % self.tick_size))`. -/
def round_price (tickIsInt : Bool) (d : ℕ) (tick price : ℚ) : ℚ :=
  if tickIsInt = false ∧ 0 < d then quantizeDown price d
  else (truncToward0 (price - pyMod price tick) : ℚ)

/-- Embedding of `SSITradingBot.round_quantity` (ssi_tradingbot.py:123):
`int(quantity)`, SSI trades integer lots. -/
def round_quantity (quantity : ℚ) : ℚ :=
  (truncToward0 quantity : ℚ)

end SSIBot

namespace BinanceBot

open Bot

/-- Embedding of `BinanceTradingBot.round_quantity` (binance_tradingbot.py:114):
always quantizes to the step's decimal string with `ROUND_DOWN` (the computed
`precision` variable is unused there). -/
def round_quantity (d : ℕ) (quantity : ℚ) : ℚ :=
  quantizeDown quantity d

/-- Embedding of `BinanceTradingBot.calculate_quantity` (binance_tradingbot.py:133):
notional sizing with a min-notional 1% headroom re-size. `d` is the decimal
precision of `self.step_size`; `if not self.current_price` is the Python falsy
test. -/
def calculate_quantity (d : ℕ) (trade_amount_usdt min_notional : ℚ)
    (current_price : Option ℚ) : ℚ :=
  if qTruthy current_price = false then 0
  else
    let p := current_price.getD 0
    let quantity := round_quantity d (trade_amount_usdt / p)
    if quantity * p < min_notional then
      round_quantity d (min_notional / p * (101 / 100))
    else
      quantity

end BinanceBot

namespace Spec

open Bot

/-- Definition written from the spec's own words, for comparison with
`BinanceBot.calculate_quantity`: §4.4 "sizeForEntry(targetExposure,
currentPrice, increments): converts a notional target into a quantity via
roundQuantity(targetExposure/currentPrice); if resulting notional
(quantity × currentPrice) falls below minNotional, recompute with a 1%
headroom buffer: roundQuantity(minNotional/currentPrice × 1.01)". -/
def sizeForEntry (d : ℕ) (targetExposure minNotional currentPrice : ℚ) : ℚ :=
  let quantity := BinanceBot.round_quantity d (targetExposure / currentPrice)
  if quantity * currentPrice < minNotional then
    BinanceBot.round_quantity d (minNotional / currentPrice * (101 / 100))
  else
    quantity

/-- The value `r` is the largest multiple of `gran` that does not exceed `x`
(for `0 < gran` the three conjuncts determine `r` uniquely). -/
def isFloorMultiple (gran x r : ℚ) : Prop :=
  (∃ k : ℤ, r = (k : ℚ) * gran) ∧ r ≤ x ∧ x < r + gran

/-- The realized-PnL formula exactly as the claim words it:
`(exitPrice − entryPrice) × size × contractMultiplier` for LONG and the
negation of that expression for SHORT. -/
def realizedPnl (side : PSide) (entry exitPrice size mult : ℚ) : ℚ :=
  match side with
  | PSide.LONG => (exitPrice - entry) * size * mult
  | PSide.SHORT => -((exitPrice - entry) * size * mult)

end Spec

/-- Sample flat engine state, used by concrete witnesses. -/
def sFlat : BaseBot.BotState :=
  { mode := Bot.Mode.spot, symbolVN30 := false, current_price := some 50,
    klines := [], position := none, entry_price := none, position_size := 0,
    unrealized_pnl := 0, total_trades := 0, winning_trades := 0, total_pnl := 0 }

/-- Sample state holding an open LONG position: entry 100, size 10, price 110. -/
def sLong : BaseBot.BotState :=
  { sFlat with
    position := some Bot.PSide.LONG
    entry_price := some 100
    position_size := 10
    current_price := some 110 }

/-- Sample state holding an open SHORT position: entry 100, size 1, price 90 —
a price move 10% in the position's favour. -/
def sShort : BaseBot.BotState :=
  { sFlat with
    position := some Bot.PSide.SHORT
    entry_price := some 100
    position_size := 1
    current_price := some 90 }

/-- Fifteen strictly decreasing closes: every close-to-close delta is a loss. -/
def decreasingCloses : List ℚ :=
  [15, 14, 13, 12, 11, 10, 9, 8, 7, 6, 5, 4, 3, 2, 1]

/-- Fifteen closes with one gain and thirteen losses over the last 14 deltas,
giving RSI(14) = 50/7 ≈ 7.14, a nonzero value below the oversold threshold. -/
def mixedCloses : List ℚ :=
  [20, 21, 20, 19, 18, 17, 16, 15, 14, 13, 12, 11, 10, 9, 8]

/-- C3: at most one position is open at any time — `open_position` invoked
while a position already exists (`self.position is not None`) is a no-op: it
returns before computing a quantity, places no order, and changes no state. -/
theorem C3_open_position_noop_when_open (s : BaseBot.BotState)
    (signal : Bot.Signal) (quantity : ℚ) (fill : Option (ℚ × ℚ))
    (h : s.position ≠ none) :
    BaseBot.open_position s signal quantity fill = (s, none) := by
  simp [BaseBot.open_position, h]

/-- Witness for C3 at the concrete open-LONG state `sLong`. -/
theorem C3_open_position_noop_when_open_witness :
    sLong.position ≠ none ∧
      BaseBot.open_position sLong Bot.Signal.BUY 1 none = (sLong, none) :=
  ⟨by simp [sLong, sFlat],
    C3_open_position_noop_when_open sLong Bot.Signal.BUY 1 none
      (by simp [sLong, sFlat])⟩

/-- C6: atomicity on order-placement failure — when the gateway reply is
`none` (the API returned no order or raised, which `place_order` catches), a
failed entry and a failed exit both leave the engine state exactly as it was:
no field of the state changes. -/
theorem C6_gateway_failure_leaves_state_unchanged (s : BaseBot.BotState)
    (signal : Bot.Signal) (quantity : ℚ) (reason : String) :
    (BaseBot.open_position s signal quantity none).1 = s ∧
      (BaseBot.close_position s reason none).1 = s := by
  constructor
  · by_cases h : s.position ≠ none
    · simp [BaseBot.open_position, h]
    · by_cases hq : quantity ≤ 0 <;> simp [BaseBot.open_position, h, hq]
  · cases h : s.position <;> simp [BaseBot.close_position, h]

/-- C10: `close_position` on a flat state (`self.position is None`) is a
no-op for every reason string: it returns immediately, places no order and
leaves every field unchanged — so the manual close at shutdown sends nothing
when flat. -/
theorem C10_close_position_flat_noop (s : BaseBot.BotState) (reason : String)
    (fill : Option ℚ) (h : s.position = none) :
    BaseBot.close_position s reason fill = (s, none) := by
  simp [BaseBot.close_position, h]

/-- Witness for C10 at the concrete flat state `sFlat`. -/
theorem C10_close_position_flat_noop_witness :
    sFlat.position = none ∧
      BaseBot.close_position sFlat Bot.stopLossReason (some 90) =
        (sFlat, none) :=
  ⟨by simp [sFlat],
    C10_close_position_flat_noop sFlat Bot.stopLossReason (some 90)
      (by simp [sFlat])⟩

/-- C5: a successful close books realized PnL `(exit − entry) × size ×
contractMultiplier` for LONG and its negation for SHORT, adds it to
`total_pnl`, increments `winning_trades` iff the PnL is positive, resets the
position to flat, and (for positive size; the multiplier is always positive)
the PnL is positive iff the exit price beats the entry in the position's
direction. -/
theorem C5_close_position_realized_pnl (s : BaseBot.BotState)
    (side : Bot.PSide) (reason : String) (e x : ℚ)
    (hpos : s.position = some side) (hentry : s.entry_price = some e) :
    ((BaseBot.close_position s reason (some x)).1.total_pnl =
        s.total_pnl +
          Spec.realizedPnl side e x s.position_size
            (BaseBot.contractMultiplier s)) ∧
    ((BaseBot.close_position s reason (some x)).1.winning_trades =
        if 0 < Spec.realizedPnl side e x s.position_size
            (BaseBot.contractMultiplier s)
        then s.winning_trades + 1 else s.winning_trades) ∧
    (BaseBot.close_position s reason (some x)).1.position = none ∧
    (BaseBot.close_position s reason (some x)).1.entry_price = none ∧
    (BaseBot.close_position s reason (some x)).1.position_size = 0 ∧
    (0 < s.position_size →
      (0 < Spec.realizedPnl side e x s.position_size
          (BaseBot.contractMultiplier s) ↔
        (match side with
          | Bot.PSide.LONG => e < x
          | Bot.PSide.SHORT => x < e))) := by
  have hm : 0 < BaseBot.contractMultiplier s := by
    unfold BaseBot.contractMultiplier
    split <;> norm_num
  cases side with
  | LONG =>
    have hpnl : Spec.realizedPnl Bot.PSide.LONG e x s.position_size
        (BaseBot.contractMultiplier s) =
        (x - e) * s.position_size * BaseBot.contractMultiplier s := rfl
    refine ⟨?_, ?_, ?_, ?_, ?_, ?_⟩ <;>
      simp only [BaseBot.close_position, hpos, hentry, Option.getD_some, hpnl]
    intro hsz
    constructor
    · intro hlt
      by_contra hxe
      push_neg at hxe
      linarith [mul_nonneg (mul_nonneg (sub_nonneg.mpr hxe) hsz.le) hm.le]
    · intro hex
      exact mul_pos (mul_pos (sub_pos.mpr hex) hsz) hm
  | SHORT =>
    have hpnl : Spec.realizedPnl Bot.PSide.SHORT e x s.position_size
        (BaseBot.contractMultiplier s) =
        (e - x) * s.position_size * BaseBot.contractMultiplier s := by
      show -((x - e) * s.position_size * BaseBot.contractMultiplier s) = _
      ring
    refine ⟨?_, ?_, ?_, ?_, ?_, ?_⟩ <;>
      simp only [BaseBot.close_position, hpos, hentry, Option.getD_some, hpnl]
    intro hsz
    constructor
    · intro hlt
      by_contra hxe
      push_neg at hxe
      linarith [mul_nonneg (mul_nonneg (sub_nonneg.mpr hxe) hsz.le) hm.le]
    · intro hex
      exact mul_pos (mul_pos (sub_pos.mpr hex) hsz) hm

/-- Witness for C5: closing the concrete LONG position `sLong` (entry 100,
size 10) at exit price 110. -/
theorem C5_close_position_realized_pnl_witness :
    sLong.position = some Bot.PSide.LONG ∧ sLong.entry_price = some 100 ∧
    (((BaseBot.close_position sLong Bot.stopLossReason (some 110)).1.total_pnl =
        sLong.total_pnl +
          Spec.realizedPnl Bot.PSide.LONG 100 110 sLong.position_size
            (BaseBot.contractMultiplier sLong)) ∧
    ((BaseBot.close_position sLong Bot.stopLossReason (some 110)).1.winning_trades =
        if 0 < Spec.realizedPnl Bot.PSide.LONG 100 110 sLong.position_size
            (BaseBot.contractMultiplier sLong)
        then sLong.winning_trades + 1 else sLong.winning_trades) ∧
    (BaseBot.close_position sLong Bot.stopLossReason (some 110)).1.position = none ∧
    (BaseBot.close_position sLong Bot.stopLossReason (some 110)).1.entry_price = none ∧
    (BaseBot.close_position sLong Bot.stopLossReason (some 110)).1.position_size = 0 ∧
    (0 < sLong.position_size →
      (0 < Spec.realizedPnl Bot.PSide.LONG 100 110 sLong.position_size
          (BaseBot.contractMultiplier sLong) ↔
        (match Bot.PSide.LONG with
          | Bot.PSide.LONG => (100 : ℚ) < 110
          | Bot.PSide.SHORT => (110 : ℚ) < 100)))) :=
  ⟨rfl, rfl,
    C5_close_position_realized_pnl sLong Bot.PSide.LONG Bot.stopLossReason
      100 110 rfl rfl⟩

/-- C1 (amended): for an open LONG position with nonzero entry and current
prices, `check_position_management` computes `pnl_pct = (price − entry) /
entry`, attempts a Stop Loss close exactly when `pnl_pct ≤ −0.02` and a Take
Profit close exactly when `pnl_pct ≥ 0.03` (both boundary-inclusive), and in
the remaining range leaves the position open, only storing the unrealized
percentage `pnl_pct × 100`. A SHORT position is not monitored at all: the
check returns with the state unchanged and no exit is ever triggered. -/
theorem C1_position_management_long_only (s : BaseBot.BotState) (e p : ℚ)
    (fill : Option ℚ) (hE : s.entry_price = some e) (he : e ≠ 0)
    (hP : s.current_price = some p) (hp : p ≠ 0) :
    (s.position = some Bot.PSide.LONG →
      ((BaseBot.check_position_management s fill).2 = some Bot.stopLossReason ↔
        (p - e) / e ≤ -2 / 100) ∧
      ((BaseBot.check_position_management s fill).2 = some Bot.takeProfitReason ↔
        3 / 100 ≤ (p - e) / e) ∧
      (-2 / 100 < (p - e) / e → (p - e) / e < 3 / 100 →
        BaseBot.check_position_management s fill =
          ({ s with unrealized_pnl := (p - e) / e * 100 }, none))) ∧
    (s.position = some Bot.PSide.SHORT →
      BaseBot.check_position_management s fill = (s, none)) := by
  have hStr : Bot.stopLossReason ≠ Bot.takeProfitReason := by decide
  have hpct : BaseBot.pnlPct s = (p - e) / e := by
    simp [BaseBot.pnlPct, hE, hP]
  constructor
  · intro hpos
    have hguard : ¬ (s.position = none ∨ Bot.qTruthy s.entry_price = false ∨
        Bot.qTruthy s.current_price = false) := by
      simp [hpos, hE, hP, Bot.qTruthy, he, hp]
    have hmain : BaseBot.check_position_management s fill =
        (if BaseBot.pnlPct s ≤ -2 / 100 then
          ({ (BaseBot.close_position s Bot.stopLossReason fill).1 with
              unrealized_pnl := BaseBot.pnlPct s * 100 }, some Bot.stopLossReason)
        else if 3 / 100 ≤ BaseBot.pnlPct s then
          ({ (BaseBot.close_position s Bot.takeProfitReason fill).1 with
              unrealized_pnl := BaseBot.pnlPct s * 100 }, some Bot.takeProfitReason)
        else ({ s with unrealized_pnl := BaseBot.pnlPct s * 100 }, none)) := by
      rw [BaseBot.check_position_management, if_neg hguard, if_pos hpos]
    rw [hmain, hpct]
    refine ⟨?_, ?_, ?_⟩
    · by_cases h1 : (p - e) / e ≤ -2 / 100
      · rw [if_pos h1]
        exact iff_of_true rfl h1
      · by_cases h2 : 3 / 100 ≤ (p - e) / e
        · rw [if_neg h1, if_pos h2]
          exact iff_of_false (fun hc => hStr (Option.some.inj hc).symm) h1
        · rw [if_neg h1, if_neg h2]
          exact iff_of_false (fun hc => Option.noConfusion hc) h1
    · by_cases h1 : (p - e) / e ≤ -2 / 100
      · rw [if_pos h1]
        exact iff_of_false (fun hc => hStr (Option.some.inj hc))
          (not_le.mpr (by linarith))
      · by_cases h2 : 3 / 100 ≤ (p - e) / e
        · rw [if_neg h1, if_pos h2]
          exact iff_of_true rfl h2
        · rw [if_neg h1, if_neg h2]
          exact iff_of_false (fun hc => Option.noConfusion hc) h2
    · intro hlo hhi
      rw [if_neg (not_le.mpr hlo), if_neg (not_le.mpr hhi)]
  · intro hpos
    have hguard : ¬ (s.position = none ∨ Bot.qTruthy s.entry_price = false ∨
        Bot.qTruthy s.current_price = false) := by
      simp [hpos, hE, hP, Bot.qTruthy, he, hp]
    have hne : ¬ s.position = some Bot.PSide.LONG := by
      simp [hpos]
    rw [BaseBot.check_position_management, if_neg hguard, if_neg hne]

/-- C1 counterexample to the claim as stated: for the open SHORT position
`sShort` (entry 100, current price 90) the claim's `unrealizedPnlPct` is
`-(90-100)/100 = +0.10 ≥ 0.03`, so a TakeProfit exit would have to trigger;
the code instead returns the state unchanged, triggers no exit, and does not
even update the stored unrealized percentage. -/
theorem C1_short_unmonitored_counterexample :
    BaseBot.check_position_management sShort (some 90) = (sShort, none) ∧
      (BaseBot.check_position_management sShort (some 90)).2 ≠
        some Bot.takeProfitReason := by
  have hguard : ¬ (sShort.position = none ∨
      Bot.qTruthy sShort.entry_price = false ∨
      Bot.qTruthy sShort.current_price = false) := by
    simp [sShort, sFlat, Bot.qTruthy]
  have hne : ¬ sShort.position = some Bot.PSide.LONG := by
    simp [sShort, sFlat]
  have h : BaseBot.check_position_management sShort (some 90) =
      (sShort, none) := by
    rw [BaseBot.check_position_management, if_neg hguard, if_neg hne]
  refine ⟨h, ?_⟩
  rw [h]
  simp

/-- Witness for the amended C1 at the concrete LONG state `sLong` (entry 100,
current price 110). -/
theorem C1_position_management_long_only_witness :
    sLong.entry_price = some 100 ∧ (100 : ℚ) ≠ 0 ∧
    sLong.current_price = some 110 ∧ (110 : ℚ) ≠ 0 ∧
    ((sLong.position = some Bot.PSide.LONG →
      ((BaseBot.check_position_management sLong (some 110)).2 =
          some Bot.stopLossReason ↔
        ((110 : ℚ) - 100) / 100 ≤ -2 / 100) ∧
      ((BaseBot.check_position_management sLong (some 110)).2 =
          some Bot.takeProfitReason ↔
        3 / 100 ≤ ((110 : ℚ) - 100) / 100) ∧
      (-2 / 100 < ((110 : ℚ) - 100) / 100 →
        ((110 : ℚ) - 100) / 100 < 3 / 100 →
        BaseBot.check_position_management sLong (some 110) =
          ({ sLong with
              unrealized_pnl := ((110 : ℚ) - 100) / 100 * 100 }, none))) ∧
    (sLong.position = some Bot.PSide.SHORT →
      BaseBot.check_position_management sLong (some 110) = (sLong, none))) :=
  ⟨rfl, by norm_num, rfl, by norm_num,
    C1_position_management_long_only sLong 100 110 (some 110) rfl (by norm_num)
      rfl (by norm_num)⟩

/-- C2 (amended): the RSI strategy returns no signal when the RSI is
unavailable or equal to exactly 0 (the guard `if not rsi` tests Python
truthiness, not only `None`); it returns the BUY (Enter LONG) signal whenever
the RSI is nonzero, strictly below the oversold threshold 30 and the side is
not LONG; and it returns the SELL (Exit) signal whenever the RSI is strictly
above the overbought threshold 70 and the side is LONG. -/
theorem C2_rsi_strategy_zero_is_no_signal (klines : List ℚ)
    (position : Option Bot.PSide) :
    (BaseBot.calculate_rsi klines 14 = none →
      BaseBot.check_rsi_strategy 14 30 70 klines position = none) ∧
    (BaseBot.calculate_rsi klines 14 = some 0 →
      BaseBot.check_rsi_strategy 14 30 70 klines position = none) ∧
    (∀ r, BaseBot.calculate_rsi klines 14 = some r → r ≠ 0 → r < 30 →
      position ≠ some Bot.PSide.LONG →
      BaseBot.check_rsi_strategy 14 30 70 klines position =
        some Bot.Signal.BUY) ∧
    (∀ r, BaseBot.calculate_rsi klines 14 = some r → 70 < r →
      position = some Bot.PSide.LONG →
      BaseBot.check_rsi_strategy 14 30 70 klines position =
        some Bot.Signal.SELL) := by
  refine ⟨?_, ?_, ?_, ?_⟩
  · intro h
    simp [BaseBot.check_rsi_strategy, h]
  · intro h
    simp [BaseBot.check_rsi_strategy, h]
  · intro r h hne hlt hpos
    simp [BaseBot.check_rsi_strategy, h, hne, hlt, hpos]
  · intro r h hgt hpos
    have hne : r ≠ 0 := by
      intro h0
      rw [h0] at hgt
      norm_num at hgt
    have hnlt : ¬ r < 30 := by
      intro hc
      linarith
    simp [BaseBot.check_rsi_strategy, h, hne, hnlt, hgt, hpos]

/-- C2 counterexample to the claim's final sentence: fifteen strictly
decreasing closes give RSI(14) exactly 0; with no open position the claim
demands Enter(LONG), but the strategy returns no signal because `not 0.0` is
true in Python. -/
theorem C2_rsi_zero_counterexample :
    BaseBot.calculate_rsi decreasingCloses 14 = some 0 ∧
      BaseBot.check_rsi_strategy 14 30 70 decreasingCloses none = none := by
  have h : BaseBot.calculate_rsi decreasingCloses 14 = some 0 := by
    norm_num [BaseBot.calculate_rsi, BaseBot.lastN, BaseBot.deltas,
      BaseBot.gainsOf, BaseBot.lossesOf, decreasingCloses]
  refine ⟨h, ?_⟩
  simp [BaseBot.check_rsi_strategy, h]

/-- Witness for the amended C2: `mixedCloses` has RSI(14) = 50/7, nonzero and
below 30, and with no position the strategy signals BUY. -/
theorem C2_rsi_strategy_zero_is_no_signal_witness :
    BaseBot.check_rsi_strategy 14 30 70 mixedCloses none =
      some Bot.Signal.BUY := by
  have h : BaseBot.calculate_rsi mixedCloses 14 = some (50 / 7) := by
    norm_num [BaseBot.calculate_rsi, BaseBot.lastN, BaseBot.deltas,
      BaseBot.gainsOf, BaseBot.lossesOf, mixedCloses]
  exact (C2_rsi_strategy_zero_is_no_signal mixedCloses none).2.2.1 (50 / 7) h
    (by norm_num) (by norm_num) (by simp)

/-- Arithmetic core of the RSI bound: for nonnegative averages with a nonzero
loss average, `100 - 100 / (1 + g / l)` lies in `[0, 100]`. -/
theorem rsi_formula_bounds (g l : ℚ) (hg : 0 ≤ g) (hl : 0 ≤ l) (hlne : l ≠ 0) :
    0 ≤ 100 - 100 / (1 + g / l) ∧ 100 - 100 / (1 + g / l) ≤ 100 := by
  have hl' : 0 < l := lt_of_le_of_ne hl (Ne.symm hlne)
  have hrs : 0 ≤ g / l := div_nonneg hg hl'.le
  constructor
  · have h1 : 100 / (1 + g / l) ≤ 100 := div_le_self (by norm_num) (by linarith)
    linarith
  · have h2 : 0 < 100 / (1 + g / l) := div_pos (by norm_num) (by linarith)
    linarith

/-- Every entry of the gain list is nonnegative, hence so is its sum. -/
theorem gainsOf_sum_nonneg (changes : List ℚ) :
    0 ≤ (BaseBot.gainsOf changes).sum := by
  apply List.sum_nonneg
  intro x hx
  simp only [BaseBot.gainsOf, List.mem_map] at hx
  obtain ⟨c, -, rfl⟩ := hx
  by_cases h : 0 < c
  · simpa [h] using h.le
  · simp [h]

/-- Every entry of the loss list is nonnegative, hence so is its sum. -/
theorem lossesOf_sum_nonneg (changes : List ℚ) :
    0 ≤ (BaseBot.lossesOf changes).sum := by
  apply List.sum_nonneg
  intro x hx
  simp only [BaseBot.lossesOf, List.mem_map] at hx
  obtain ⟨c, -, rfl⟩ := hx
  by_cases h : 0 < c
  · simp [h]
  · simp [h, abs_nonneg]

/-- With at least `period + 1` candles the RSI window produces exactly
`period` close-to-close changes. -/
theorem deltas_lastN_length (klines : List ℚ) (period : ℕ)
    (hlen : period + 1 ≤ klines.length) :
    (BaseBot.deltas (BaseBot.lastN klines (period + 1))).length = period := by
  simp only [BaseBot.deltas, BaseBot.lastN, List.length_zipWith,
    List.length_tail, List.length_drop]
  omega

/-- Unfolding of `calculate_rsi` once the history is long enough. -/
theorem calculate_rsi_eq (klines : List ℚ) (period : ℕ)
    (hlen : period + 1 ≤ klines.length) :
    BaseBot.calculate_rsi klines period =
      (if (BaseBot.lossesOf (BaseBot.deltas
            (BaseBot.lastN klines (period + 1)))).sum / (period : ℚ) = 0
       then some 100
       else some (100 - 100 /
        (1 + ((BaseBot.gainsOf (BaseBot.deltas
            (BaseBot.lastN klines (period + 1)))).sum / (period : ℚ)) /
          ((BaseBot.lossesOf (BaseBot.deltas
            (BaseBot.lastN klines (period + 1)))).sum / (period : ℚ))))) := by
  simp only [BaseBot.calculate_rsi]
  rw [if_neg (by omega)]

/-- C4: with at least `period + 1` candles (and a positive period, as every
configured RSI period is), `calculate_rsi` returns a value in `[0, 100]`; it
returns exactly 100 when every close-to-close change of the window is
nonnegative (average loss 0, the division-by-zero guard), and exactly 0 when
every change is a strict loss (average gain 0, average loss positive). -/
theorem C4_rsi_range_and_saturation (period : ℕ) (klines : List ℚ)
    (hp : 0 < period) (hlen : period + 1 ≤ klines.length) :
    (∃ r, BaseBot.calculate_rsi klines period = some r ∧ 0 ≤ r ∧ r ≤ 100) ∧
    ((∀ d ∈ BaseBot.deltas (BaseBot.lastN klines (period + 1)), 0 ≤ d) →
      BaseBot.calculate_rsi klines period = some 100) ∧
    ((∀ d ∈ BaseBot.deltas (BaseBot.lastN klines (period + 1)), d < 0) →
      BaseBot.calculate_rsi klines period = some 0) := by
  have heq := calculate_rsi_eq klines period hlen
  have hper : (0 : ℚ) < (period : ℚ) := by exact_mod_cast hp
  have hGnn := gainsOf_sum_nonneg (BaseBot.deltas (BaseBot.lastN klines (period + 1)))
  have hLnn := lossesOf_sum_nonneg (BaseBot.deltas (BaseBot.lastN klines (period + 1)))
  refine ⟨?_, ?_, ?_⟩
  · by_cases h0 : (BaseBot.lossesOf (BaseBot.deltas
        (BaseBot.lastN klines (period + 1)))).sum / (period : ℚ) = 0
    · exact ⟨100, by rw [heq, if_pos h0], by norm_num, by norm_num⟩
    · have hb := rsi_formula_bounds _ _
        (div_nonneg hGnn hper.le) (div_nonneg hLnn hper.le) h0
      exact ⟨_, by rw [heq, if_neg h0], hb.1, hb.2⟩
  · intro hall
    have hz : (BaseBot.lossesOf (BaseBot.deltas
        (BaseBot.lastN klines (period + 1)))).sum = 0 := by
      apply List.sum_eq_zero
      intro x hx
      simp only [BaseBot.lossesOf, List.mem_map] at hx
      obtain ⟨c, hc, rfl⟩ := hx
      by_cases hcp : 0 < c
      · simp [hcp]
      · have hc0 : c = 0 := le_antisymm (not_lt.mp hcp) (hall c hc)
        simp [hcp, hc0]
    rw [heq, if_pos (by rw [hz]; exact zero_div _)]
  · intro hall
    have hGz : (BaseBot.gainsOf (BaseBot.deltas
        (BaseBot.lastN klines (period + 1)))).sum = 0 := by
      apply List.sum_eq_zero
      intro x hx
      simp only [BaseBot.gainsOf, List.mem_map] at hx
      obtain ⟨c, hc, rfl⟩ := hx
      simp [not_lt.mpr (hall c hc).le]
    have hLpos : 0 < (BaseBot.lossesOf (BaseBot.deltas
        (BaseBot.lastN klines (period + 1)))).sum := by
      apply List.sum_pos
      · intro x hx
        simp only [BaseBot.lossesOf, List.mem_map] at hx
        obtain ⟨c, hc, rfl⟩ := hx
        rw [if_neg (not_lt.mpr (hall c hc).le)]
        exact abs_pos.mpr (ne_of_lt (hall c hc))
      · intro hnil
        have hlen2 := deltas_lastN_length klines period hlen
        rw [BaseBot.lossesOf] at hnil
        rw [List.map_eq_nil_iff] at hnil
        rw [hnil] at hlen2
        simp at hlen2
        omega
    have h0 : ¬ (BaseBot.lossesOf (BaseBot.deltas
        (BaseBot.lastN klines (period + 1)))).sum / (period : ℚ) = 0 :=
      div_ne_zero (ne_of_gt hLpos) (ne_of_gt hper)
    rw [heq, if_neg h0, hGz]
    norm_num

/-- Witness for C4 at period 1 and the two-candle history `[1, 2]`. -/
theorem C4_rsi_range_and_saturation_witness :
    0 < 1 ∧ 1 + 1 ≤ ([(1 : ℚ), 2] : List ℚ).length ∧
    ((∃ r, BaseBot.calculate_rsi [(1 : ℚ), 2] 1 = some r ∧ 0 ≤ r ∧ r ≤ 100) ∧
     ((∀ d ∈ BaseBot.deltas (BaseBot.lastN [(1 : ℚ), 2] (1 + 1)), 0 ≤ d) →
       BaseBot.calculate_rsi [(1 : ℚ), 2] 1 = some 100) ∧
     ((∀ d ∈ BaseBot.deltas (BaseBot.lastN [(1 : ℚ), 2] (1 + 1)), d < 0) →
       BaseBot.calculate_rsi [(1 : ℚ), 2] 1 = some 0)) :=
  ⟨by norm_num, by norm_num,
    C4_rsi_range_and_saturation 1 [(1 : ℚ), 2] (by norm_num) (by norm_num)⟩

/-- On a nonnegative argument, rounding toward zero is the floor. -/
theorem truncToward0_of_nonneg (x : ℚ) (hx : 0 ≤ x) :
    Bot.truncToward0 x = ⌊x⌋ := by
  simp [Bot.truncToward0, hx]

/-- Rounding an integer toward zero returns it unchanged. -/
theorem truncToward0_intCast (n : ℤ) : Bot.truncToward0 (n : ℚ) = n := by
  rcases le_or_lt 0 (n : ℚ) with h | h
  · simp [Bot.truncToward0, h]
  · simp [Bot.truncToward0, not_le.mpr h]

/-- For a nonnegative input, `quantizeDown x d` is the largest multiple of
`10^(-d)` that does not exceed `x`. -/
theorem quantizeDown_isFloorMultiple (x : ℚ) (d : ℕ) (hx : 0 ≤ x) :
    Spec.isFloorMultiple (1 / 10 ^ d) x (Bot.quantizeDown x d) := by
  have hpow : (0 : ℚ) < 10 ^ d := by positivity
  have hx' : 0 ≤ x * 10 ^ d := by positivity
  refine ⟨⟨⌊x * 10 ^ d⌋, ?_⟩, ?_, ?_⟩
  · rw [Bot.quantizeDown, truncToward0_of_nonneg _ hx']
    ring
  · rw [Bot.quantizeDown, truncToward0_of_nonneg _ hx', div_le_iff₀ hpow]
    exact Int.floor_le _
  · rw [Bot.quantizeDown, truncToward0_of_nonneg _ hx', div_add_div_same,
      lt_div_iff₀ hpow]
    have h := Int.lt_floor_add_one (x * 10 ^ d)
    push_cast at h
    linarith

/-- The integer-tick branch `int(price - (price % tick))` is the largest
multiple of `tick` not exceeding a nonnegative price, for a positive integer
tick. -/
theorem intTick_isFloorMultiple (tick p : ℚ) (m : ℤ) (hm : 0 < m)
    (htick : tick = (m : ℚ)) (hp : 0 ≤ p) :
    Spec.isFloorMultiple tick p
      ((Bot.truncToward0 (p - Bot.pyMod p tick) : ℤ) : ℚ) := by
  have htpos : 0 < tick := by
    rw [htick]
    exact_mod_cast hm
  have hsub : p - Bot.pyMod p tick = tick * (⌊p / tick⌋ : ℚ) := by
    rw [Bot.pyMod]
    ring
  have hcast : tick * (⌊p / tick⌋ : ℚ) = ((m * ⌊p / tick⌋ : ℤ) : ℚ) := by
    rw [htick]
    push_cast
    ring
  have hval : ((Bot.truncToward0 (p - Bot.pyMod p tick) : ℤ) : ℚ) =
      tick * (⌊p / tick⌋ : ℚ) := by
    rw [hsub, hcast, truncToward0_intCast]
  refine ⟨⟨⌊p / tick⌋, ?_⟩, ?_, ?_⟩
  · rw [hval]
    ring
  · rw [hval, mul_comm]
    exact (le_div_iff₀ htpos).mp (Int.floor_le _)
  · rw [hval]
    have h := Int.lt_floor_add_one (p / tick)
    have h2 : p < ((⌊p / tick⌋ : ℚ) + 1) * tick := (div_lt_iff₀ htpos).mp h
    linarith [h2, mul_comm ((⌊p / tick⌋ : ℚ) + 1) tick]

/-- C7 counterexample to the claim as stated: with the fractional tick size
0.25 (two decimal digits in its string) and raw price 0.30, `round_price`
returns 0.30 itself — `Decimal.quantize` floors to the decimal exponent of
the tick string, not to multiples of the tick — and 0.30 is not a multiple of
0.25 (the largest multiple not exceeding 0.30 would be 0.25). -/
theorem C7_round_price_counterexample :
    SSIBot.round_price false 2 (1 / 4) (3 / 10) = 3 / 10 ∧
      ¬ ∃ k : ℤ, (3 / 10 : ℚ) = (k : ℚ) * (1 / 4) := by
  constructor
  · rw [SSIBot.round_price, if_pos ⟨rfl, by norm_num⟩, Bot.quantizeDown,
      truncToward0_of_nonneg _ (by norm_num)]
    norm_num
  · rintro ⟨k, hk⟩
    have h6 : ((6 : ℤ) : ℚ) = ((5 * k : ℤ) : ℚ) := by
      push_cast
      linarith
    have h6' : (6 : ℤ) = 5 * k := by exact_mod_cast h6
    omega

/-- C7 (amended): for float tick sizes with `d > 0` fractional digits the
SSI/Binance `round_price` floors the price to `d` decimal places — the largest
multiple of `10^(-d)` not exceeding it, which is the largest multiple of the
tick exactly when the tick is `10^(-d)` (0.1, 0.01, …); for int-typed tick
sizes it returns the largest multiple of the tick not exceeding the price;
the base-class `round_price`, however, returns `None` for int-typed tick
sizes (bare `return` with unreachable code after it). -/
theorem C7_round_price_decimal_floor (d : ℕ) (tick price : ℚ)
    (hp : 0 ≤ price) :
    (0 < d → Spec.isFloorMultiple (1 / 10 ^ d) price
      (SSIBot.round_price false d tick price)) ∧
    (0 < d → tick = 1 / 10 ^ d → Spec.isFloorMultiple tick price
      (SSIBot.round_price false d tick price)) ∧
    (∀ m : ℤ, 0 < m → tick = (m : ℚ) → Spec.isFloorMultiple tick price
      (SSIBot.round_price true d tick price)) ∧
    BaseBot.round_price true d tick price = none := by
  refine ⟨?_, ?_, ?_, ?_⟩
  · intro hd
    rw [SSIBot.round_price, if_pos ⟨rfl, hd⟩]
    exact quantizeDown_isFloorMultiple price d hp
  · intro hd htick
    rw [htick, SSIBot.round_price, if_pos ⟨rfl, hd⟩]
    exact quantizeDown_isFloorMultiple price d hp
  · intro m hm htick
    rw [SSIBot.round_price, if_neg (by simp)]
    exact intTick_isFloorMultiple tick price m hm htick hp
  · rw [BaseBot.round_price, if_neg (by simp)]

/-- C8 counterexample to the claim as stated: with the fractional step size
0.25 (two decimal digits in its string) and raw quantity 0.30, the quantize
branch of `round_quantity` returns 0.30 itself, which is not a multiple of
0.25. -/
theorem C8_round_quantity_counterexample :
    BaseBot.round_quantity false 2 (3 / 10) = 3 / 10 ∧
      ¬ ∃ k : ℤ, (3 / 10 : ℚ) = (k : ℚ) * (1 / 4) := by
  constructor
  · rw [BaseBot.round_quantity, if_pos ⟨rfl, by norm_num⟩, Bot.quantizeDown,
      truncToward0_of_nonneg _ (by norm_num)]
    norm_num
  · rintro ⟨k, hk⟩
    have h6 : ((6 : ℤ) : ℚ) = ((5 * k : ℤ) : ℚ) := by
      push_cast
      linarith
    have h6' : (6 : ℤ) = 5 * k := by exact_mod_cast h6
    omega

/-- C8 (amended): `round_quantity` never returns more than a nonnegative raw
input (floor-only, never rounds up); on a float step with `d > 0` fractional
digits it returns a multiple of `10^(-d)` (a multiple of the step exactly when
the step is a power of ten such as 0.001), and on an int-typed step it
truncates to an integer; the Binance copy always takes the quantize branch and
satisfies the same two properties. -/
theorem C8_round_quantity_floor_only (stepIsInt : Bool) (d : ℕ) (q : ℚ)
    (hq : 0 ≤ q) :
    BaseBot.round_quantity stepIsInt d q ≤ q ∧
    (0 < d →
      ∃ k : ℤ, BaseBot.round_quantity false d q = (k : ℚ) * (1 / 10 ^ d)) ∧
    (∃ n : ℤ, BaseBot.round_quantity true d q = (n : ℚ)) ∧
    BinanceBot.round_quantity d q ≤ q ∧
    (∃ k : ℤ, BinanceBot.round_quantity d q = (k : ℚ) * (1 / 10 ^ d)) := by
  have hfm := quantizeDown_isFloorMultiple q d hq
  have htr : (Bot.truncToward0 q : ℚ) ≤ q := by
    rw [truncToward0_of_nonneg _ hq]
    exact Int.floor_le q
  refine ⟨?_, ?_, ?_, ?_, ?_⟩
  · by_cases h : stepIsInt = false ∧ 0 < d
    · rw [BaseBot.round_quantity, if_pos h]
      exact hfm.2.1
    · rw [BaseBot.round_quantity, if_neg h]
      exact htr
  · intro hd
    rw [BaseBot.round_quantity, if_pos ⟨rfl, hd⟩]
    exact hfm.1
  · rw [BaseBot.round_quantity, if_neg (by simp)]
    exact ⟨Bot.truncToward0 q, rfl⟩
  · rw [BinanceBot.round_quantity]
    exact hfm.2.1
  · rw [BinanceBot.round_quantity]
    exact hfm.1

/-- Witness for the amended C8 at step digits 3 and raw quantity 0.12345. -/
theorem C8_round_quantity_floor_only_witness :
    (0 : ℚ) ≤ 12345 / 100000 ∧
    (BaseBot.round_quantity false 3 (12345 / 100000) ≤ 12345 / 100000 ∧
    (0 < 3 →
      ∃ k : ℤ, BaseBot.round_quantity false 3 (12345 / 100000) =
        (k : ℚ) * (1 / 10 ^ 3)) ∧
    (∃ n : ℤ, BaseBot.round_quantity true 3 (12345 / 100000) = (n : ℚ)) ∧
    BinanceBot.round_quantity 3 (12345 / 100000) ≤ 12345 / 100000 ∧
    (∃ k : ℤ, BinanceBot.round_quantity 3 (12345 / 100000) =
      (k : ℚ) * (1 / 10 ^ 3))) :=
  ⟨by norm_num,
    C8_round_quantity_floor_only false 3 (12345 / 100000) (by norm_num)⟩

/-- Witness for the amended C7 at one decimal digit, integer tick 3 and raw
price 123.4. -/
theorem C7_round_price_decimal_floor_witness :
    (0 : ℚ) ≤ 617 / 5 ∧
    ((0 < 1 → Spec.isFloorMultiple (1 / 10 ^ 1) (617 / 5)
      (SSIBot.round_price false 1 3 (617 / 5))) ∧
    (0 < 1 → (3 : ℚ) = 1 / 10 ^ 1 → Spec.isFloorMultiple 3 (617 / 5)
      (SSIBot.round_price false 1 3 (617 / 5))) ∧
    (∀ m : ℤ, 0 < m → (3 : ℚ) = (m : ℚ) → Spec.isFloorMultiple 3 (617 / 5)
      (SSIBot.round_price true 1 3 (617 / 5))) ∧
    BaseBot.round_price true 1 3 (617 / 5) = none) :=
  ⟨by norm_num, C7_round_price_decimal_floor 1 3 (617 / 5) (by norm_num)⟩

/-- C9: Binance notional sizing agrees with the spec formula `sizeForEntry`
for every positive price, and the concrete scenario holds: with step digits 3
(step 0.001) the raw target 0.12345 rounds to 0.123, and at price 50 with
minNotional 10 and target exposure 6.1725 (raw quantity 0.12345) the notional
6.15 is below 10, so the quantity is resized to
`roundQuantity(10 / 50 × 1.01) = 0.202`. -/
theorem C9_notional_sizing (d : ℕ) (t m p : ℚ) (hp : 0 < p) :
    BinanceBot.calculate_quantity d t m (some p) = Spec.sizeForEntry d t m p ∧
    BinanceBot.round_quantity 3 (12345 / 100000) = 123 / 1000 ∧
    BinanceBot.calculate_quantity 3 (61725 / 10000) 10 (some 50) =
      202 / 1000 := by
  refine ⟨?_, ?_, ?_⟩
  · have hcond : ¬ (Bot.qTruthy (some p) = false) := by
      simp [Bot.qTruthy, ne_of_gt hp]
    simp only [BinanceBot.calculate_quantity, Spec.sizeForEntry,
      Option.getD_some]
    rw [if_neg hcond]
  · rw [BinanceBot.round_quantity, Bot.quantizeDown,
      truncToward0_of_nonneg _ (by norm_num)]
    norm_num
  · have h1 : BinanceBot.round_quantity 3 ((61725 / 10000 : ℚ) / 50) =
        123 / 1000 := by
      rw [BinanceBot.round_quantity, Bot.quantizeDown,
        truncToward0_of_nonneg _ (by norm_num)]
      norm_num
    have h2 : BinanceBot.round_quantity 3 ((10 : ℚ) / 50 * (101 / 100)) =
        202 / 1000 := by
      rw [BinanceBot.round_quantity, Bot.quantizeDown,
        truncToward0_of_nonneg _ (by norm_num)]
      norm_num
    have hcond : ¬ (Bot.qTruthy (some (50 : ℚ)) = false) := by
      simp [Bot.qTruthy]
    simp only [BinanceBot.calculate_quantity, Option.getD_some]
    rw [if_neg hcond, h1, if_pos (by norm_num), h2]

/-- Witness for C9 at the scenario price 50. -/
theorem C9_notional_sizing_witness :
    (0 : ℚ) < 50 ∧
    (BinanceBot.calculate_quantity 3 (61725 / 10000) 10 (some 50) =
        Spec.sizeForEntry 3 (61725 / 10000) 10 50 ∧
    BinanceBot.round_quantity 3 (12345 / 100000) = 123 / 1000 ∧
    BinanceBot.calculate_quantity 3 (61725 / 10000) 10 (some 50) =
      202 / 1000) :=
  ⟨by norm_num, C9_notional_sizing 3 (61725 / 10000) 10 50 (by norm_num)⟩
